import Mathlib

/-!
Verification of the stdout UI layer of the gdu disk-usage analyzer
(package `stdout`, file `stdout.go`), as a shallow embedding in Lean 4.

Conventions of the embedding:
* Go `int64` values are modelled as `Int`; overflow plays no role in the
  verified properties.
* Go `float64` arithmetic appears only in `formatSize` (division by a
  power of two, displayed to one decimal) and in the used-percent
  computation of `ListDevices`.  Finite float values are modelled as exact
  rationals; the special IEEE results of dividing by a zero denominator
  (NaN and the signed infinities) are modelled explicitly by a dedicated
  type, since `ListDevices` can hit them.
* The goroutine structure of `AnalyzePath` (two tasks joined by a
  `sync.WaitGroup`) is modelled as a small-step transition system over an
  explicit state; every interleaving of the tasks is a path of the step
  relation.
* `sort.Sort` is modelled by its documented contract: the output is a
  permutation of the input that is ordered with respect to the comparator.
  The contract does not promise stability.
* The progress poller `updateProgress` is modelled as a function of the
  sequence of channel events it observes; Go's `select` picks
  nondeterministically between simultaneously ready channels, which the
  model makes explicit with a choice bit.
-/

/-- Errors returned by external collaborators (`os.Stat`, the device
getter); their content is irrelevant here, only their identity. -/
abbrev GoError := String

/-- One child entry of the scanned directory, as produced by the external
analyzer (`analyze.File`): `size` is the apparent size (`GetSize`),
`usage` the on-disk usage (`GetUsage`). -/
structure FileEntry where
  name : String
  size : Int
  usage : Int
  isDir : Bool
  flag : Char
deriving DecidableEq

/-- The scan result returned by `analyze.Analyzer.AnalyzeDir`: the root
directory with its immediate children. -/
structure DirTree where
  name : String
  files : List FileEntry
deriving DecidableEq

/-- The configuration fields of the `UI` struct that the verified
behaviour depends on. -/
structure UIConf where
  useColors : Bool
  showProgress : Bool
  showApparentSize : Bool
  ignoreDirPaths : List String
deriving DecidableEq

/-- A mounted device as returned by the device-info getter
(`device.Device`). -/
structure Device where
  name : String
  size : Int
  free : Int
  mountPoint : String
deriving DecidableEq

/-- The five size units of `formatSize`. -/
inductive SizeUnit where
  | B | KiB | MiB | GiB | TiB
deriving DecidableEq

/-- Embedding of `formatSize` (stdout.go:234-247): the unit bucket is
selected by exclusive decimal lower bounds, the displayed value is the
byte count divided by the matching power of two (the real code prints it
with one decimal via Sprintf; the model keeps the exact rational). -/
def formatSize (size : Int) : SizeUnit × ℚ :=
  if size > 1000000000000 then (SizeUnit.TiB, (size : ℚ) / 2 ^ 40)
  else if size > 1000000000 then (SizeUnit.GiB, (size : ℚ) / 2 ^ 30)
  else if size > 1000000 then (SizeUnit.MiB, (size : ℚ) / 2 ^ 20)
  else if size > 1000 then (SizeUnit.KiB, (size : ℚ) / 2 ^ 10)
  else (SizeUnit.B, (size : ℚ))

/-- The binary divisor attached to each unit bucket. -/
def SizeUnit.divisor : SizeUnit → ℚ
  | .B => 1
  | .KiB => 2 ^ 10
  | .MiB => 2 ^ 20
  | .GiB => 2 ^ 30
  | .TiB => 2 ^ 40

/-! ### Device listing (`ListDevices`, stdout.go:61-116) -/

/-- Result of a float64 operation as hit by `ListDevices`: a finite value
(kept exact as a rational) or one of the IEEE special values produced by
dividing by a zero denominator. -/
inductive GoFloat where
  | fin (q : ℚ)
  | nan
  | pinf
  | ninf
deriving DecidableEq

/-- Embedding of `float64(device.Size-device.Free) / float64(device.Size) * 100`
(stdout.go:102).  For a nonzero denominator the value is the exact
quotient; for a zero denominator IEEE 754 yields NaN when the numerator
is zero and a signed infinity otherwise (multiplying by 100 keeps the
sign). -/
def usedPercentVal (size free : Int) : GoFloat :=
  if size = 0 then
    if size - free > 0 then GoFloat.pinf
    else if size - free < 0 then GoFloat.ninf
    else GoFloat.nan
  else GoFloat.fin (((size - free : Int) : ℚ) / (size : ℚ) * 100)

/-- A float64 after `math.Round`: an integer-valued float or one of the
special values (which `math.Round` returns unchanged). -/
inductive GoRounded where
  | int (n : Int)
  | nan
  | pinf
  | ninf
deriving DecidableEq

/-- Rounding half away from zero, the semantics of Go's `math.Round` on
finite values. -/
def roundHalfAway (q : ℚ) : Int :=
  if q ≥ 0 then ⌊q + 1 / 2⌋ else ⌈q - 1 / 2⌉

/-- Embedding of `math.Round` (stdout.go:102). -/
def goRound : GoFloat → GoRounded
  | .fin q => .int (roundHalfAway q)
  | .nan => .nan
  | .pinf => .pinf
  | .ninf => .ninf

/-- Embedding of `Sprintf("%.f%%", x)` (stdout.go:111) applied to the
rounded value: an integral float prints with no decimals, the special
values print as NaN, +Inf and -Inf. -/
def sprintfPercent : GoRounded → String
  | .int n => toString n ++ "%"
  | .nan => "NaN%"
  | .pinf => "+Inf%"
  | .ninf => "-Inf%"

/-- The string placed in the Used% column for a device
(before the red color styling, which only wraps the text). -/
def usedPercentStr (size free : Int) : String :=
  sprintfPercent (goRound (usedPercentVal size free))

/-- One rendered row of the device table: the raw name and mount point,
the three formatted sizes, and the Used% string (stdout.go:104-112). -/
structure DeviceRow where
  name : String
  sizeF : SizeUnit × ℚ
  usedF : SizeUnit × ℚ
  freeF : SizeUnit × ℚ
  percent : String
  mount : String
deriving DecidableEq

/-- Embedding of the per-device body of the `ListDevices` loop
(stdout.go:101-113). -/
def deviceRow (d : Device) : DeviceRow :=
  { name := d.name
    sizeF := formatSize d.size
    usedF := formatSize (d.size - d.free)
    freeF := formatSize d.free
    percent := usedPercentStr d.size d.free
    mount := d.mountPoint }

/-- Embedding of `maxLength` (stdout.go:249-259). -/
def maxLength (list : List Device) (keyGetter : Device → String) : Nat :=
  list.foldl (fun maxLen item =>
    if (keyGetter item).length > maxLen then (keyGetter item).length else maxLen) 0

/-- Embedding of `maxInt` (stdout.go:261-266). -/
def maxInt (x y : Nat) : Nat :=
  if x > y then x else y

/-- The header label printed above the device-name column
(stdout.go:93). -/
def deviceHeaderLabel : String := "Device"

/-- Embedding of the name-column width computation of `ListDevices`
(stdout.go:67-70): note it measures the string `"Devices"`, not the
printed header label `"Device"`. -/
def maxDeviceNameLength (devices : List Device) : Nat :=
  maxInt (maxLength devices (fun device => device.name)) (String.length "Devices")

/-! ### Ignore set (stdout.go:184-195) -/

/-- Embedding of `SetIgnoreDirPaths` (stdout.go:184-189): a fresh map is
built from the given paths, fully replacing the previous one; the map is
modelled by its key set, a list queried by membership. -/
def SetIgnoreDirPaths (ui : UIConf) (paths : List String) : UIConf :=
  { ui with ignoreDirPaths := paths }

/-- Embedding of `ShouldDirBeIgnored` (stdout.go:192-195): a pure map
membership test. -/
def ShouldDirBeIgnored (ui : UIConf) (path : String) : Bool :=
  ui.ignoreDirPaths.contains path

/-! ### Entry listing and sorting (`AnalyzePath`, stdout.go:119-181) -/

/-- The size metric chosen for display (stdout.go:158-163): apparent size
(`GetSize`) when `showApparentSize` is set, on-disk usage (`GetUsage`)
otherwise. -/
def sizeForDisplay (conf : UIConf) (f : FileEntry) : Int :=
  if conf.showApparentSize then f.size else f.usage

/-- Modelled from the spec: the comparator `analyze.Files.Less` consulted
by `sort.Sort(dir.Files)` (stdout.go:147) lives in the external `analyze`
package, whose source is not part of this module.  The spec states that
the coordinator sorts the children "by the configured size metric
(descending)", so the comparator is modelled as strict descending
comparison of that metric. -/
def filesLess (conf : UIConf) (a b : FileEntry) : Bool :=
  decide (sizeForDisplay conf a > sizeForDisplay conf b)

/-- The documented contract of Go's `sort.Sort` (used at stdout.go:147):
the output is a permutation of the input ordered with respect to the
comparator.  Stability is deliberately absent: `sort.Sort` documents that
the sort is not guaranteed to be stable (`sort.Stable` is a separate
function the code does not use), so any conforming output is possible. -/
def sortSortSpec (less : FileEntry → FileEntry → Bool)
    (input output : List FileEntry) : Prop :=
  output.Perm input ∧ output.Pairwise (fun a b => less b a = false)

/-- Stability on ties: for every metric value, the subsequence of entries
carrying that value is the same in input and output. -/
def stableTies (m : FileEntry → Int) (input output : List FileEntry) : Prop :=
  ∀ k : Int, output.filter (fun f => decide (m f = k))
    = input.filter (fun f => decide (m f = k))

/-- One printed row of the entry listing (stdout.go:158-178): the status
flag, the formatted size of the configured metric, and the name — with a
slash prefix when the entry is a directory. -/
def entryLine (conf : UIConf) (f : FileEntry) : Char × (SizeUnit × ℚ) × String :=
  (f.flag, formatSize (sizeForDisplay conf f),
    if f.isDir then "/" ++ f.name else f.name)

/-- The rows printed for a list of entries, in order (stdout.go:158-178). -/
def renderEntries (conf : UIConf) (files : List FileEntry) :
    List (Char × (SizeUnit × ℚ) × String) :=
  files.map (entryLine conf)

/-! ### Progress poller (`updateProgress`, stdout.go:197-232) -/

/-- A progress snapshot (`analyze.CurrentProgress`). -/
structure CurrentProgress where
  itemCount : Int
  totalSize : Int
deriving DecidableEq

/-- What the poller's `select` faces in one loop iteration: only the
progress channel ready, only the done channel ready, or both ready at
once — in which case Go's `select` chooses pseudo-randomly, modelled by
the explicit `pickProg` bit. -/
inductive ChanEvent where
  | progOnly (p : CurrentProgress)
  | doneOnly
  | both (p : CurrentProgress) (pickProg : Bool)
deriving DecidableEq

/-- The writes `updateProgress` performs on the output sink: the blanking
row written at the top of each iteration, a spinner-and-snapshot render,
and the bare carriage return written right before returning when the
done channel is taken. -/
inductive OutEvent where
  | emptyRow
  | renderSnapshot (p : CurrentProgress)
  | carriageReturn
deriving DecidableEq

/-- Embedding of the `updateProgress` loop (stdout.go:210-231) as a
function of the channel events it observes: each iteration writes the
blanking row, then selects; the done branch writes a carriage return and
returns, the progress branch renders the snapshot and loops.  An
exhausted event list models a poller still blocked in `select`. -/
def updateProgressRun : List ChanEvent → List OutEvent
  | [] => []
  | e :: rest =>
    OutEvent.emptyRow ::
      match e with
      | .progOnly p => OutEvent.renderSnapshot p :: updateProgressRun rest
      | .doneOnly => [OutEvent.carriageReturn]
      | .both p pick =>
          if pick then OutEvent.renderSnapshot p :: updateProgressRun rest
          else [OutEvent.carriageReturn]

/-- Holds when nothing at all is written after the carriage return that
marks the observation of the done signal. -/
def noOutputAfterDone : List OutEvent → Bool
  | [] => true
  | OutEvent.carriageReturn :: rest => rest.isEmpty
  | _ :: rest => noOutputAfterDone rest

/-! ### Scan/progress coordination (`AnalyzePath`, stdout.go:119-147)

The two goroutines and the `sync.WaitGroup` barrier are modelled as a
small-step transition system; a scheduler picks any enabled step, so the
reachable states cover every interleaving. -/

/-- Status of one goroutine. -/
inductive TaskSt where
  | idle
  | running
  | finished
deriving DecidableEq

/-- Program counter of the coordinating caller of `AnalyzePath`:
the upfront `Stat` check, the two spawns, the `wait.Wait()` barrier, the
sort-and-print epilogue, and the nil-dereference crash that would occur
if the epilogue ran with the result still unwritten. -/
inductive MainPc where
  | start
  | returnedErr
  | spawnedProg
  | spawnedScan
  | passedBarrier
  | rendered
  | crashed
deriving DecidableEq

/-- The external collaborators of `AnalyzePath`: the path checker
(`os.Stat` behind `ui.pathChecker`) and the analyzer's eventual result. -/
structure Env where
  pathChecker : String → Except GoError Unit
  scanResult : DirTree

/-- State of one `AnalyzePath` run: the caller's program counter, the two
goroutine statuses, the WaitGroup counter, the shared `dir` reference
written by the scan goroutine, and the lines printed after the barrier. -/
structure CoordSt where
  main : MainPc
  scan : TaskSt
  prog : TaskSt
  wg : Nat
  dirRef : Option DirTree
  out : List (Char × (SizeUnit × ℚ) × String)

/-- Initial state: nothing spawned, nothing written. -/
def initSt : CoordSt :=
  { main := .start, scan := .idle, prog := .idle, wg := 0, dirRef := none, out := [] }

/-- One atomic step of `AnalyzePath` (stdout.go:119-147) or of one of its
goroutines. -/
inductive Step (conf : UIConf) (env : Env) (path : String) :
    CoordSt → CoordSt → Prop where
  | checkFail (s : CoordSt) (e : GoError) :
      s.main = MainPc.start →
      env.pathChecker path = Except.error e →
      Step conf env path s { s with main := MainPc.returnedErr }
  | spawnProg (s : CoordSt) :
      s.main = MainPc.start →
      env.pathChecker path = Except.ok () →
      conf.showProgress = true →
      Step conf env path s
        { s with main := MainPc.spawnedProg, prog := TaskSt.running, wg := s.wg + 1 }
  | skipProg (s : CoordSt) :
      s.main = MainPc.start →
      env.pathChecker path = Except.ok () →
      conf.showProgress = false →
      Step conf env path s { s with main := MainPc.spawnedProg }
  | spawnScan (s : CoordSt) :
      s.main = MainPc.spawnedProg →
      Step conf env path s
        { s with main := MainPc.spawnedScan, scan := TaskSt.running, wg := s.wg + 1 }
  | scanFinish (s : CoordSt) :
      s.scan = TaskSt.running →
      Step conf env path s
        { s with scan := TaskSt.finished, dirRef := some env.scanResult, wg := s.wg - 1 }
  | progFinish (s : CoordSt) :
      s.prog = TaskSt.running →
      Step conf env path s
        { s with prog := TaskSt.finished, wg := s.wg - 1 }
  | barrier (s : CoordSt) :
      s.main = MainPc.spawnedScan →
      s.wg = 0 →
      Step conf env path s { s with main := MainPc.passedBarrier }
  | renderOk (s : CoordSt) (d : DirTree) (sorted : List FileEntry) :
      s.main = MainPc.passedBarrier →
      s.dirRef = some d →
      sortSortSpec (filesLess conf) d.files sorted →
      Step conf env path s
        { s with main := MainPc.rendered, out := renderEntries conf sorted }
  | renderNil (s : CoordSt) :
      s.main = MainPc.passedBarrier →
      s.dirRef = none →
      Step conf env path s { s with main := MainPc.crashed }

/-- The states one `AnalyzePath` run can reach from the initial state
under any interleaving. -/
def Reach (conf : UIConf) (env : Env) (path : String) (s : CoordSt) : Prop :=
  Relation.ReflTransGen (Step conf env path) initSt s

/-- Embedding of the `AnalyzePath` entry point as its set of reachable
states.  Its second parameter mirrors the discarded `_ *analyze.Dir`
parameter of the Go signature (stdout.go:119). -/
def AnalyzePathReach (conf : UIConf) (env : Env) (path : String)
    (_discarded : Option DirTree) (s : CoordSt) : Prop :=
  Reach conf env path s

/-- The WaitGroup contribution of one goroutine: 1 while it runs. -/
def runBit : TaskSt → Nat
  | .running => 1
  | _ => 0

/-- The inductive invariant of the coordination state machine. -/
structure CoordInv (conf : UIConf) (env : Env) (path : String) (s : CoordSt) : Prop where
  wgCount : s.wg = runBit s.scan + runBit s.prog
  preSpawn : s.main = MainPc.start ∨ s.main = MainPc.returnedErr →
    s.scan = TaskSt.idle ∧ s.prog = TaskSt.idle ∧ s.out = [] ∧ s.dirRef = none
  scanIdleAtProg : s.main = MainPc.spawnedProg → s.scan = TaskSt.idle
  scanSpawned : s.main = MainPc.spawnedScan ∨ s.main = MainPc.passedBarrier
    ∨ s.main = MainPc.rendered → s.scan ≠ TaskSt.idle
  progSpawned : conf.showProgress = true →
    (s.main = MainPc.spawnedProg ∨ s.main = MainPc.spawnedScan
      ∨ s.main = MainPc.passedBarrier ∨ s.main = MainPc.rendered) →
    s.prog ≠ TaskSt.idle
  progOff : conf.showProgress = false → s.prog = TaskSt.idle
  dirWritten : s.scan = TaskSt.finished → s.dirRef = some env.scanResult
  afterBarrier : s.main = MainPc.passedBarrier ∨ s.main = MainPc.rendered →
    s.scan = TaskSt.finished ∧ (conf.showProgress = true → s.prog = TaskSt.finished)
  notCrashed : s.main ≠ MainPc.crashed
  checkPassed : s.main ≠ MainPc.start ∧ s.main ≠ MainPc.returnedErr →
    env.pathChecker path = Except.ok ()

/-! ### Concrete instances used by the witnesses -/

/-- A configuration with the progress display enabled. -/
def confFull : UIConf :=
  { useColors := false, showProgress := true, showApparentSize := false,
    ignoreDirPaths := [] }

/-- A configuration selecting the apparent-size metric. -/
def confApparent : UIConf :=
  { useColors := false, showProgress := false, showApparentSize := true,
    ignoreDirPaths := [] }

/-- An environment whose path check succeeds and whose scan returns an
empty root. -/
def envOk : Env :=
  { pathChecker := fun _ => Except.ok (), scanResult := { name := "root", files := [] } }

/-- An environment whose path check fails. -/
def envErr : Env :=
  { pathChecker := fun _ => Except.error "no such file or directory",
    scanResult := { name := "root", files := [] } }

/-- The state of a completed `AnalyzePath` run under `confFull`/`envOk`. -/
def coordRendered : CoordSt :=
  { main := .rendered, scan := .finished, prog := .finished, wg := 0,
    dirRef := some envOk.scanResult, out := renderEntries confFull [] }

/-- The state of an `AnalyzePath` run stopped by the failed path check. -/
def coordErrored : CoordSt :=
  { main := .returnedErr, scan := .idle, prog := .idle, wg := 0,
    dirRef := none, out := [] }

/-- Two distinct entries with identical sizes, for the stability
counterexample. -/
def fileA : FileEntry :=
  { name := "a", size := 100, usage := 100, isDir := false, flag := ' ' }

/-- The second of the two equal-sized entries. -/
def fileB : FileEntry :=
  { name := "b", size := 100, usage := 100, isDir := false, flag := ' ' }

/-- A 5-byte entry for the sortedness witness. -/
def fileBig : FileEntry :=
  { name := "big", size := 5, usage := 5, isDir := false, flag := ' ' }

/-- A 3-byte entry for the sortedness witness. -/
def fileSmall : FileEntry :=
  { name := "small", size := 3, usage := 3, isDir := false, flag := ' ' }

/-- A sample progress snapshot. -/
def sampleProgress : CurrentProgress :=
  { itemCount := 1, totalSize := 2 }

/-- C4: `formatSize` selects exactly one unit bucket by exclusive decimal
lower bounds (`>1e12` TiB, `>1e9` GiB, `>1e6` MiB, `>1e3` KiB, else B),
the displayed value times the binary divisor of the bucket recovers the
byte count exactly, and the boundary inputs 999, 1000, 1001, 1e6+1,
1e9+1, 1e12+1 select B, B, KiB, MiB, GiB, TiB respectively. -/
theorem formatSize_buckets :
    (∀ b : Int,
      ((formatSize b).1 = SizeUnit.TiB ↔ b > 1000000000000) ∧
      ((formatSize b).1 = SizeUnit.GiB ↔ b > 1000000000 ∧ b ≤ 1000000000000) ∧
      ((formatSize b).1 = SizeUnit.MiB ↔ b > 1000000 ∧ b ≤ 1000000000) ∧
      ((formatSize b).1 = SizeUnit.KiB ↔ b > 1000 ∧ b ≤ 1000000) ∧
      ((formatSize b).1 = SizeUnit.B ↔ b ≤ 1000) ∧
      (formatSize b).2 * (formatSize b).1.divisor = (b : ℚ)) ∧
    (formatSize 999).1 = SizeUnit.B ∧
    (formatSize 1000).1 = SizeUnit.B ∧
    (formatSize 1001).1 = SizeUnit.KiB ∧
    (formatSize 1000001).1 = SizeUnit.MiB ∧
    (formatSize 1000000001).1 = SizeUnit.GiB ∧
    (formatSize 1000000000001).1 = SizeUnit.TiB := by
  refine ⟨fun b => ?_, by decide, by decide, by decide, by decide, by decide, by decide⟩
  unfold formatSize
  split_ifs with h1 h2 h3 h4 <;>
    refine ⟨by simp_all <;> omega, by simp_all <;> omega, by simp_all <;> omega,
      by simp_all <;> omega, by simp_all <;> omega, ?_⟩ <;>
    simp [SizeUnit.divisor] <;>
    rw [div_mul_cancel₀] <;> norm_num

/-- C7: for a device with nonzero size, the Used% column holds
round((size − free)/size × 100) rendered as an integer percentage, the
Used column holds the formatted value of size − free, and the concrete
device (sda1, size 1000, free 400, mount /) renders 60%. -/
theorem listDevices_used_percent (d : Device) (h : d.size ≠ 0) :
    (deviceRow d).percent =
      toString (roundHalfAway (((d.size - d.free : Int) : ℚ) / (d.size : ℚ) * 100)) ++ "%" ∧
    (deviceRow d).usedF = formatSize (d.size - d.free) ∧
    (deviceRow (Device.mk "sda1" 1000 400 "/")).percent = "60%" := by
  refine ⟨?_, rfl, ?_⟩
  · simp [deviceRow, usedPercentStr, usedPercentVal, goRound, sprintfPercent, h]
  · show sprintfPercent (goRound (usedPercentVal 1000 400)) = "60%"
    have hv : usedPercentVal 1000 400 = GoFloat.fin 60 := by
      unfold usedPercentVal
      rw [if_neg (by norm_num)]
      norm_num
    have hr : roundHalfAway 60 = 60 := by
      unfold roundHalfAway
      rw [if_pos (by norm_num)]
      rw [show (60 : ℚ) + 1 / 2 = 121 / 2 by norm_num]
      rw [Int.floor_eq_iff]
      norm_num
    rw [hv]
    show sprintfPercent (GoRounded.int (roundHalfAway 60)) = "60%"
    rw [hr]
    rfl

/-- Witness for `listDevices_used_percent` at the device of the claim. -/
theorem listDevices_used_percent_witness :
    (deviceRow (Device.mk "sda1" 1000 400 "/")).percent = "60%" :=
  (listDevices_used_percent (Device.mk "sda1" 1000 400 "/") (by decide)).2.2

/-- C6: a device of total size 0 does not make the (total) rendering
function fail, but the Used% column holds the IEEE artifact of the
unguarded division — the string NaN% when free is also 0, and -Inf% when
free is positive — not 0% and not a deliberate not-applicable marker. -/
theorem listDevices_zero_size_percent :
    (deviceRow (Device.mk "sda1" 0 0 "/")).percent = "NaN%" ∧
    (deviceRow (Device.mk "sdb1" 0 400 "/")).percent = "-Inf%" ∧
    (deviceRow (Device.mk "sda1" 0 0 "/")).percent ≠ "0%" := by
  refine ⟨?_, ?_, ?_⟩ <;> decide

/-- C8 counterexample: the claim says the name-column width is the
maximum of the longest device name and the printed header label
(`"Device"`, length 6); for a single device named `sda` the code computes
7 (it measures the string `"Devices"`), not 6. -/
theorem listDevices_name_width_counterexample :
    maxDeviceNameLength [Device.mk "sda" 100 50 "/"] ≠
      Nat.max (maxLength [Device.mk "sda" 100 50 "/"] (fun device => device.name))
        deviceHeaderLabel.length ∧
    maxDeviceNameLength [Device.mk "sda" 100 50 "/"] = 7 ∧
    Nat.max (maxLength [Device.mk "sda" 100 50 "/"] (fun device => device.name))
        deviceHeaderLabel.length = 6 := by
  refine ⟨?_, ?_, ?_⟩ <;> decide

/-- Every key length in the list is bounded below the running-maximum
fold that implements `maxLength`, whatever the accumulator start. -/
theorem maxLength_foldl_le (key : Device → String) :
    ∀ (l : List Device) (a : Nat),
      a ≤ l.foldl (fun maxLen item =>
        if (key item).length > maxLen then (key item).length else maxLen) a ∧
      ∀ d ∈ l, (key d).length ≤ l.foldl (fun maxLen item =>
        if (key item).length > maxLen then (key item).length else maxLen) a := by
  intro l
  induction l with
  | nil => simp
  | cons x xs ih =>
    intro a
    refine ⟨?_, ?_⟩
    · refine le_trans ?_ (ih (if (key x).length > a then (key x).length else a)).1
      split <;> omega
    · intro d hd
      rcases List.mem_cons.mp hd with h | h
      · subst h
        refine le_trans ?_ (ih (if (key d).length > a then (key d).length else a)).1
        split <;> omega
      · exact (ih (if (key x).length > a then (key x).length else a)).2 d h

/-- The running-maximum fold returns either its accumulator start or the
key length of some list element. -/
theorem maxLength_foldl_mem (key : Device → String) :
    ∀ (l : List Device) (a : Nat),
      l.foldl (fun maxLen item =>
        if (key item).length > maxLen then (key item).length else maxLen) a = a ∨
      ∃ d ∈ l, l.foldl (fun maxLen item =>
        if (key item).length > maxLen then (key item).length else maxLen) a
          = (key d).length := by
  intro l
  induction l with
  | nil => simp
  | cons x xs ih =>
    intro a
    rcases ih (if (key x).length > a then (key x).length else a) with h | ⟨d, hd, h⟩
    · by_cases hx : (key x).length > a
      · right
        refine ⟨x, List.mem_cons_self x xs, ?_⟩
        show List.foldl _ (if (key x).length > a then (key x).length else a) xs
          = (key x).length
        rw [if_pos hx] at h ⊢
        exact h
      · left
        show List.foldl _ (if (key x).length > a then (key x).length else a) xs = a
        rw [if_neg hx] at h ⊢
        exact h
    · right
      exact ⟨d, List.mem_cons_of_mem x hd, h⟩

/-- `maxLength` bounds every key length of the list. -/
theorem maxLength_le (key : Device → String) (l : List Device) :
    ∀ d ∈ l, (key d).length ≤ maxLength l key :=
  (maxLength_foldl_le key l 0).2

/-- `maxLength` is either 0 (its start value) or one of the key
lengths. -/
theorem maxLength_cases (key : Device → String) (l : List Device) :
    maxLength l key = 0 ∨ ∃ d ∈ l, maxLength l key = (key d).length :=
  maxLength_foldl_mem key l 0

/-- `maxInt` is an upper bound of its first argument. -/
theorem maxInt_le_left (x y : Nat) : x ≤ maxInt x y := by
  unfold maxInt
  split <;> omega

/-- `maxInt` is an upper bound of its second argument. -/
theorem maxInt_le_right (x y : Nat) : y ≤ maxInt x y := by
  unfold maxInt
  split <;> omega

/-- `maxInt` returns one of its arguments. -/
theorem maxInt_cases (x y : Nat) : maxInt x y = x ∨ maxInt x y = y := by
  unfold maxInt
  split <;> simp

/-- C8 amended: the device-name column width is the maximum of the length
of the longest device name and the length of the string `"Devices"`
(7, one more than the printed header label `"Device"`): it bounds every
device name, it bounds 7, and it is attained by one of the two. -/
theorem maxDeviceNameLength_is_max (devices : List Device) :
    (∀ d ∈ devices, d.name.length ≤ maxDeviceNameLength devices) ∧
    String.length "Devices" ≤ maxDeviceNameLength devices ∧
    (maxDeviceNameLength devices = String.length "Devices" ∨
      ∃ d ∈ devices, maxDeviceNameLength devices = d.name.length) := by
  refine ⟨?_, maxInt_le_right _ _, ?_⟩
  · intro d hd
    exact le_trans (maxLength_le (fun device => device.name) devices d hd)
      (maxInt_le_left _ _)
  · rcases maxInt_cases (maxLength devices (fun device => device.name))
        (String.length "Devices") with h | h
    · rcases maxLength_cases (fun device => device.name) devices with h0 | ⟨d, hd, hdl⟩
      · exfalso
        have h7 := maxInt_le_right (maxLength devices (fun device => device.name))
          (String.length "Devices")
        have hn : String.length "Devices" = 7 := by decide
        omega
      · right
        refine ⟨d, hd, ?_⟩
        show maxInt (maxLength devices fun device => device.name)
          (String.length "Devices") = d.name.length
        rw [h, hdl]
    · left
      exact h

/-- Witness for `maxDeviceNameLength_is_max` on a single long-named
device. -/
theorem maxDeviceNameLength_is_max_witness :
    (Device.mk "verylongdevicename" 1 1 "/").name.length ≤
      maxDeviceNameLength [Device.mk "verylongdevicename" 1 1 "/"] ∧
    String.length "Devices" ≤
      maxDeviceNameLength [Device.mk "verylongdevicename" 1 1 "/"] :=
  ⟨(maxDeviceNameLength_is_max [Device.mk "verylongdevicename" 1 1 "/"]).1
      (Device.mk "verylongdevicename" 1 1 "/") (by simp),
    (maxDeviceNameLength_is_max [Device.mk "verylongdevicename" 1 1 "/"]).2.1⟩

/-- Every reachable state of the coordination machine satisfies the
inductive invariant. -/
theorem reach_inv (conf : UIConf) (env : Env) (path : String) (s : CoordSt)
    (h : Reach conf env path s) : CoordInv conf env path s := by
  induction h with
  | refl =>
    constructor <;> intros <;> simp_all [initSt, runBit]
  | tail hr hstep ih =>
    cases hstep with
    | checkFail e hm hc =>
      obtain ⟨hsc, hpr, hout, hdir⟩ := ih.preSpawn (Or.inl hm)
      refine ⟨ih.wgCount, fun _ => ⟨hsc, hpr, hout, hdir⟩, ?_, ?_, ?_,
        ih.progOff, ih.dirWritten, ?_, ?_, ?_⟩ <;> simp
    | spawnProg hm hc hsp =>
      obtain ⟨hsc, hpr, hout, hdir⟩ := ih.preSpawn (Or.inl hm)
      have hwg := ih.wgCount
      refine ⟨?_, ?_, ?_, ?_, ?_, ?_, ?_, ?_, ?_, ?_⟩
      · simp [hsc, hpr, runBit] at hwg
        simp [hsc, runBit]
        omega
      · simp
      · intro _
        exact hsc
      · simp
      · intro _ _
        simp
      · intro hf
        simp [hsp] at hf
      · intro hf
        exact ih.dirWritten hf
      · simp
      · simp
      · intro _
        exact hc
    | skipProg hm hc hsp =>
      obtain ⟨hsc, hpr, hout, hdir⟩ := ih.preSpawn (Or.inl hm)
      refine ⟨ih.wgCount, ?_, fun _ => hsc, ?_, ?_, fun _ => hpr,
        ih.dirWritten, ?_, ?_, fun _ => hc⟩
      · simp
      · simp
      · intro ht _
        simp [hsp] at ht
      · simp
      · simp
    | spawnScan hm =>
      have hsc := ih.scanIdleAtProg hm
      have hwg := ih.wgCount
      have hcp : env.pathChecker path = Except.ok () := by
        refine ih.checkPassed ⟨?_, ?_⟩ <;> simp [hm]
      refine ⟨?_, ?_, ?_, ?_, ?_, ih.progOff, ?_, ?_, ?_, fun _ => hcp⟩
      · simp [hsc, runBit] at hwg
        simp [runBit]
        omega
      · simp
      · simp
      · intro _
        simp
      · intro ht _
        exact ih.progSpawned ht (Or.inl hm)
      · intro hf
        simp at hf
      · simp
      · simp
    | scanFinish hsr =>
      have hwg := ih.wgCount
      refine ⟨?_, ?_, ?_, ?_, ?_, ih.progOff, fun _ => rfl, ?_,
        ih.notCrashed, ih.checkPassed⟩
      · simp [hsr, runBit] at hwg
        simp [runBit]
        omega
      · intro hor
        exfalso
        have := (ih.preSpawn hor).1
        simp [hsr] at this
      · intro hmp
        exfalso
        have := ih.scanIdleAtProg hmp
        simp [hsr] at this
      · intro _
        simp
      · intro ht hor
        exact ih.progSpawned ht hor
      · intro hor
        exact ⟨rfl, fun ht => (ih.afterBarrier hor).2 ht⟩
    | progFinish hpf =>
      have hwg := ih.wgCount
      refine ⟨?_, ?_, ih.scanIdleAtProg, ih.scanSpawned, ?_, ?_,
        ih.dirWritten, ?_, ih.notCrashed, ih.checkPassed⟩
      · simp [hpf, runBit] at hwg
        simp [runBit]
        omega
      · intro hor
        exfalso
        have := (ih.preSpawn hor).2.1
        simp [hpf] at this
      · intro _ _
        simp
      · intro hf
        exfalso
        have := ih.progOff hf
        simp [hpf] at this
      · intro hor
        exact ⟨(ih.afterBarrier hor).1, fun _ => rfl⟩
    | barrier hm hw =>
      rename_i t
      have hwg := ih.wgCount
      rw [hw] at hwg
      have hscan : t.scan = TaskSt.finished := by
        have h1 := ih.scanSpawned (Or.inl hm)
        cases hsc0 : t.scan with
        | idle => exact absurd hsc0 h1
        | running =>
          rw [hsc0] at hwg
          simp [runBit] at hwg
          omega
        | finished => rfl
      have hprog : conf.showProgress = true → t.prog = TaskSt.finished := by
        intro ht
        have h1 := ih.progSpawned ht (Or.inr (Or.inl hm))
        cases hp0 : t.prog with
        | idle => exact absurd hp0 h1
        | running =>
          rw [hp0] at hwg
          simp [runBit] at hwg
        | finished => rfl
      have hcp : env.pathChecker path = Except.ok () := by
        refine ih.checkPassed ⟨?_, ?_⟩ <;> simp [hm]
      refine ⟨ih.wgCount, ?_, ?_, fun _ => ih.scanSpawned (Or.inl hm), ?_,
        ih.progOff, ih.dirWritten, fun _ => ⟨hscan, hprog⟩, ?_, fun _ => hcp⟩
      · simp
      · simp
      · intro ht _
        exact ih.progSpawned ht (Or.inr (Or.inl hm))
      · simp
    | renderOk d sorted hm hd hsort =>
      have hcp : env.pathChecker path = Except.ok () := by
        refine ih.checkPassed ⟨?_, ?_⟩ <;> simp [hm]
      refine ⟨ih.wgCount, ?_, ?_, fun _ => ih.scanSpawned (Or.inr (Or.inl hm)), ?_,
        ih.progOff, ih.dirWritten, fun _ => ih.afterBarrier (Or.inl hm), ?_,
        fun _ => hcp⟩
      · simp
      · simp
      · intro ht _
        exact ih.progSpawned ht (Or.inr (Or.inr (Or.inl hm)))
      · simp
    | renderNil hm hd =>
      exfalso
      have h1 := ih.dirWritten (ih.afterBarrier (Or.inl hm)).1
      rw [hd] at h1
      exact Option.noConfusion h1

/-- C1: whenever an `AnalyzePath` run whose path check succeeded reaches
the point where the scan result is read (the barrier has been passed or
the listing has been rendered), the scan goroutine has terminated and has
written the result, and — when `showProgress` is enabled — the progress
goroutine has terminated too; the nil-result crash state is unreachable,
and when `showProgress` is disabled the progress goroutine is never
started in any reachable state. -/
theorem analyzePath_barrier (conf : UIConf) (env : Env) (path : String)
    (s : CoordSt) (h : Reach conf env path s) :
    ((s.main = MainPc.passedBarrier ∨ s.main = MainPc.rendered) →
      s.scan = TaskSt.finished ∧ s.dirRef = some env.scanResult ∧
        (conf.showProgress = true → s.prog = TaskSt.finished)) ∧
    (conf.showProgress = false → s.prog = TaskSt.idle) ∧
    s.main ≠ MainPc.crashed := by
  have hi := reach_inv conf env path s h
  exact ⟨fun hor => ⟨(hi.afterBarrier hor).1,
      hi.dirWritten (hi.afterBarrier hor).1, (hi.afterBarrier hor).2⟩,
    hi.progOff, hi.notCrashed⟩

/-- Witness for `analyzePath_barrier`: a complete run with progress
enabled, stepping spawn-progress, spawn-scan, scan-finish,
progress-finish, barrier, render. -/
theorem analyzePath_barrier_witness :
    coordRendered.scan = TaskSt.finished ∧ coordRendered.prog = TaskSt.finished := by
  have hreach : Reach confFull envOk "/" coordRendered :=
    Relation.ReflTransGen.tail
      (Relation.ReflTransGen.tail
        (Relation.ReflTransGen.tail
          (Relation.ReflTransGen.tail
            (Relation.ReflTransGen.tail
              (Relation.ReflTransGen.tail Relation.ReflTransGen.refl
                (Step.spawnProg initSt rfl rfl rfl))
              (Step.spawnScan _ rfl))
            (Step.scanFinish _ rfl))
          (Step.progFinish _ rfl))
        (Step.barrier _ rfl rfl))
      (Step.renderOk _ envOk.scanResult [] rfl rfl ⟨List.Perm.nil, List.Pairwise.nil⟩)
  have h := analyzePath_barrier confFull envOk "/" coordRendered hreach
  exact ⟨(h.1 (Or.inr rfl)).1, (h.1 (Or.inr rfl)).2.2 rfl⟩

/-- C5: if the upfront path check fails, every reachable state of the run
has both goroutines unstarted, the output sink untouched and the result
reference unwritten; the caller is either still at the check or has
already returned the error. -/
theorem analyzePath_stat_error (conf : UIConf) (env : Env) (path : String)
    (e : GoError) (s : CoordSt)
    (hc : env.pathChecker path = Except.error e)
    (h : Reach conf env path s) :
    s.scan = TaskSt.idle ∧ s.prog = TaskSt.idle ∧ s.out = [] ∧
      s.dirRef = none ∧
      (s.main = MainPc.start ∨ s.main = MainPc.returnedErr) := by
  have hi := reach_inv conf env path s h
  have hor : s.main = MainPc.start ∨ s.main = MainPc.returnedErr := by
    by_contra hcon
    push_neg at hcon
    have hok := hi.checkPassed hcon
    rw [hc] at hok
    exact Except.noConfusion hok
  obtain ⟨h1, h2, h3, h4⟩ := hi.preSpawn hor
  exact ⟨h1, h2, h3, h4, hor⟩

/-- Witness for `analyzePath_stat_error`: the run that takes the
check-fail step. -/
theorem analyzePath_stat_error_witness :
    coordErrored.scan = TaskSt.idle ∧ coordErrored.out = [] := by
  have hreach : Reach confFull envErr "/" coordErrored :=
    Relation.ReflTransGen.tail Relation.ReflTransGen.refl
      (Step.checkFail initSt "no such file or directory" rfl rfl)
  have h := analyzePath_stat_error confFull envErr "/"
    "no such file or directory" coordErrored rfl hreach
  exact ⟨h.1, h.2.2.1⟩

/-- C10: the second parameter of `AnalyzePath` is discarded by the Go
signature, so the behaviour of a run — its whole set of reachable states,
hence every output and result — is identical for any two values of that
argument. -/
theorem analyzePath_ignores_second_arg (conf : UIConf) (env : Env)
    (path : String) (a b : Option DirTree) :
    AnalyzePathReach conf env path a = AnalyzePathReach conf env path b := rfl

/-- C9: after any sequence of `SetIgnoreDirPaths` calls,
`ShouldDirBeIgnored` answers true exactly for the paths passed to the
most recent call — earlier calls are fully forgotten — and the lookup is
a pure function of the configuration. -/
theorem shouldDirBeIgnored_spec (ui : UIConf) (prev paths : List String)
    (p : String) :
    ShouldDirBeIgnored (SetIgnoreDirPaths (SetIgnoreDirPaths ui prev) paths) p
      = true ↔ p ∈ paths := by
  simp [ShouldDirBeIgnored, SetIgnoreDirPaths]

/-- C2 counterexample: when the progress channel and the done channel are
simultaneously ready, Go's `select` may take the progress branch (the
code gives the done channel no priority); on that choice the poller
renders the snapshot instead of erasing the line and terminating, so
completion does not win. -/
theorem updateProgress_select_counterexample :
    updateProgressRun [ChanEvent.both sampleProgress true] =
      [OutEvent.emptyRow, OutEvent.renderSnapshot sampleProgress] ∧
    OutEvent.renderSnapshot sampleProgress ∈
      updateProgressRun [ChanEvent.both sampleProgress true] ∧
    updateProgressRun [ChanEvent.both sampleProgress true] ≠
      [OutEvent.emptyRow, OutEvent.carriageReturn] := by
  refine ⟨rfl, ?_, ?_⟩ <;> decide

/-- C2 amended: on simultaneous readiness the `select` choice is
nondeterministic and the poller may render the pending snapshot once;
but whenever the done branch is taken — in particular whenever done is
ready alone, and on the done-favouring choice of a tie — the poller
writes the erasing carriage return and terminates immediately, and
nothing (in particular no render) is ever written after it. -/
theorem updateProgress_no_render_after_done (es : List ChanEvent) :
    noOutputAfterDone (updateProgressRun es) = true ∧
    updateProgressRun (ChanEvent.doneOnly :: es) =
      [OutEvent.emptyRow, OutEvent.carriageReturn] ∧
    (∀ p, updateProgressRun (ChanEvent.both p false :: es) =
      [OutEvent.emptyRow, OutEvent.carriageReturn]) := by
  refine ⟨?_, rfl, fun p => rfl⟩
  induction es with
  | nil => rfl
  | cons e rest ih =>
    cases e with
    | progOnly p => simpa [updateProgressRun, noOutputAfterDone] using ih
    | doneOnly => rfl
    | both p pick =>
      cases pick with
      | false => rfl
      | true => simpa [updateProgressRun, noOutputAfterDone] using ih

/-- C3 counterexample: for two distinct entries of equal metric, swapping
them yields an output that satisfies everything `sort.Sort` guarantees,
yet violates stability — so the displayed order is not guaranteed to
retain the analyzer's relative order on ties. -/
theorem sortSort_stability_counterexample :
    sortSortSpec (filesLess confApparent) [fileA, fileB] [fileB, fileA] ∧
    ¬ stableTies (sizeForDisplay confApparent) [fileA, fileB] [fileB, fileA] := by
  constructor
  · exact ⟨List.Perm.swap fileA fileB [], by decide⟩
  · intro hst
    exact absurd (hst 100) (by decide)

/-- C3 amended: every outcome of `sort.Sort` under the (spec-modelled)
metric comparator is a permutation of the analyzer's children whose
displayed size metric is non-increasing, and the rendering prints exactly
one row per child; equal-metric entries may appear in either order. -/
theorem analyzePath_sorted_descending (conf : UIConf)
    (input output : List FileEntry)
    (h : sortSortSpec (filesLess conf) input output) :
    output.Perm input ∧
    output.Pairwise (fun a b => sizeForDisplay conf b ≤ sizeForDisplay conf a) ∧
    (renderEntries conf output).length = input.length := by
  refine ⟨h.1, ?_, ?_⟩
  · refine h.2.imp ?_
    intro a b hab
    simp only [filesLess] at hab
    exact not_lt.mp (of_decide_eq_false hab)
  · simp [renderEntries, h.1.length_eq]

/-- Witness for `analyzePath_sorted_descending` on a two-entry listing
already in descending order. -/
theorem analyzePath_sorted_descending_witness :
    List.Pairwise
      (fun a b => sizeForDisplay confApparent b ≤ sizeForDisplay confApparent a)
      [fileBig, fileSmall] :=
  (analyzePath_sorted_descending confApparent [fileBig, fileSmall]
    [fileBig, fileSmall] ⟨List.Perm.refl _, by decide⟩).2.1
